import Mathlib

/-!
Verification development for the AgroDrone transfer-and-connectivity watcher
(`file_transfer_watcher/main.go`, `find_and_connect.go`, `scp_dir.go`, and the
older single-file variant `scripts/file_transfer_watcher.go`).

The Go programs are shallowly embedded: filesystem and process effects become
explicit inputs (directory snapshots, per-entry failure oracles, command
outcomes), and every iteration of a loop becomes a pure function producing a
trace of the observable actions it performs (commands issued, files copied,
entries removed, sleeps).  Times are integers (nanoseconds), byte counts are
integers, and paths are lists of components (`filepath.Join` is append).
-/

namespace AgroDrone

/-- Helper for `strings.Contains`: does `needle` occur as a prefix of `hay`? -/
def listPrefixEq : List Char → List Char → Bool
  | [], _ => true
  | _ :: _, [] => false
  | c :: cs, d :: ds => c == d && listPrefixEq cs ds

/-- Helper for `strings.Contains`: does `needle` occur anywhere in `hay`? -/
def containsSub (needle : List Char) : List Char → Bool
  | [] => listPrefixEq needle []
  | c :: t => listPrefixEq needle (c :: t) || containsSub needle t

/-- Go's `strings.Contains s sub`. -/
def goContains (s sub : String) : Bool :=
  containsSub sub.toList s.toList

/-- One octal digit as a character. -/
def octDigitChar (n : Nat) : Char := Char.ofNat (48 + n % 8)

/-- Base-8 digit expansion (most significant first), fuelled. -/
def octRepAux : Nat → Nat → List Char
  | 0, _ => []
  | fuel + 1, n =>
    if n < 8 then [octDigitChar n]
    else octRepAux fuel (n / 8) ++ [octDigitChar n]

/-- Base-8 digit expansion of a natural number, most significant first. -/
def octRep (n : Nat) : List Char := octRepAux (n + 1) n

/-- Left-pad a character list with `c` to width `w`. -/
def padLeft (c : Char) (w : Nat) (l : List Char) : List Char :=
  List.replicate (w - l.length) c ++ l

/-- Go's `fmt.Sprintf("%04o", n)`: octal, zero-padded to at least 4 digits. -/
def octal4 (n : Nat) : String := String.mk (padLeft '0' 4 (octRep n))

/-- An entry met by `filepath.Walk` over the export directory, in traversal
order, together with the outcome the environment gives to each operation the
walk callback performs on it: the error `Walk` hands to the callback, the
result of `os.Open`, and the result of `client.CopyFromFilePassThru`. -/
structure FsEntry where
  /-- Path components relative to `exportDir` (`filepath.Rel exportDir path`). -/
  rel : List String
  /-- `info.IsDir()`. -/
  isDir : Bool
  /-- `info.Mode()` as a natural number; `Perm()` is `mode % 512` (mask `0o777`). -/
  mode : Nat
  /-- The `err` argument `filepath.Walk` passes for this entry (`nil` = `none`). -/
  walkErr : Option String
  /-- Outcome of `os.Open` (`nil` = `none`). -/
  openErr : Option String
  /-- Outcome of the remote copy (`nil` = `none`). -/
  copyErr : Option String
  deriving Repr, DecidableEq

/-- One file handed to the remote side by `scpDir`: the remote path
(`filepath.Join(ingestDir, relativePath)`) and the permission string
(`fmt.Sprintf("%04o", info.Mode().Perm())`). -/
structure Transfer where
  remotePath : List String
  modeStr : String
  deriving Repr, DecidableEq

/-- The error `scpDir`'s walk callback produces at an entry, `none` when the
entry is processed without error (directories with no walk error are skipped
silently). -/
def entryErr (e : FsEntry) : Option String :=
  match e.walkErr with
  | some m => some m
  | none =>
    if e.isDir then none
    else
      match e.openErr with
      | some m => some ("open local: " ++ m)
      | none =>
        match e.copyErr with
        | some m => some ("copy: " ++ m)
        | none => none

/-- The transfer record produced for a regular, error-free entry. -/
def transferOf (ingest : List String) (e : FsEntry) : Transfer :=
  { remotePath := ingest ++ e.rel, modeStr := octal4 (e.mode % 512) }

/-- The transfers a list of entries yields when every one of them succeeds:
directories are skipped, each regular file becomes one `Transfer`. -/
def transfersOf (ingest : List String) (l : List FsEntry) : List Transfer :=
  l.filterMap fun e => if e.isDir then none else some (transferOf ingest e)

/-- The body of `scpDir`'s `filepath.Walk`: entries are processed in traversal
order; a walk error aborts with that error, a directory is skipped, an open or
copy failure aborts with the wrapped error, and a successful copy is recorded
(copies made before a later failure are kept — nothing is rolled back). -/
def scpWalk (ingest : List String) : List FsEntry → Option String × List Transfer
  | [] => (none, [])
  | e :: rest =>
    match e.walkErr with
    | some m => (some m, [])
    | none =>
      if e.isDir then scpWalk ingest rest
      else
        match e.openErr with
        | some m => (some ("open local: " ++ m), [])
        | none =>
          match e.copyErr with
          | some m => (some ("copy: " ++ m), [])
          | none =>
            let r := scpWalk ingest rest
            (r.1, transferOf ingest e :: r.2)

/-- Environment of one `scpDir` call: the outcome of `client.Connect` and the
local tree as `filepath.Walk` visits it. -/
structure ScpEnv where
  connectErr : Option String
  entries : List FsEntry
  deriving Repr, DecidableEq

/-- `scpDir` (scp_dir.go): connect to the remote host, then walk the local
tree copying each regular file; returns the first error (or `none`) and the
list of copies actually performed. -/
def scpDir (env : ScpEnv) (ingest : List String) : Option String × List Transfer :=
  match env.connectErr with
  | some m => (some ("connect: " ++ m), [])
  | none => scpWalk ingest env.entries

/-- An entry with no errors of any kind. -/
def cleanEntry (e : FsEntry) : Prop :=
  e.walkErr = none ∧ e.openErr = none ∧ e.copyErr = none

instance cleanEntryDec (e : FsEntry) : Decidable (cleanEntry e) := by
  unfold cleanEntry
  infer_instance

/- ---------------- nmcli / findAndConnect (find_and_connect.go) ------------- -/

/-- Outcomes the operating system gives to the nmcli invocations of one
`findAndConnect` call: the scan output lines (`none` = the scan command
errored), whether `nmcli con show <ssid>` exits without error (a connection
profile already exists), and whether the final connect command exits without
error. -/
structure NmcliEnv where
  scanOut : Option (List String)
  conShowOk : Bool
  connectOk : Bool
  deriving Repr, DecidableEq

/-- The scan-line test of `findAndConnect`: the line must contain the target
name and contain the expected security mode `"WPA2"`. -/
def matchLine (ssid line : String) : Bool :=
  goContains line ssid && goContains line "WPA2"

/-- The create-and-connect command built when no profile exists: the password
pair is appended only when the supplied password is non-empty. -/
def createConnectArgs (ssid pw : String) : List String :=
  ["device", "wifi", "connect", ssid] ++
    (if pw = "" then [] else ["remotePassword", pw])

/-- The scan-result loop of `findAndConnect`: the first line containing both
the ssid and `"WPA2"` triggers `nmcli con show <ssid>`; if a profile exists the
plain connect command is issued, otherwise the create-and-connect command;
either way the call returns the connect command's success.  Returns the result
together with the nmcli argument lists issued after the scan. -/
def scanLoop (env : NmcliEnv) (ssid pw : String) :
    List String → Bool × List (List String)
  | [] => (false, [])
  | line :: rest =>
    if matchLine ssid line then
      (env.connectOk,
        [["con", "show", ssid],
         if env.conShowOk then ["device", "wifi", "connect", ssid]
         else createConnectArgs ssid pw])
    else scanLoop env ssid pw rest

/-- `findAndConnect` (find_and_connect.go): scan for access points (the
preceding `nmcli dev wifi rescan` result is discarded by the source), return
false on scan failure, otherwise run the scan-result loop. -/
def findAndConnect (env : NmcliEnv) (ssid pw : String) :
    Bool × List (List String) :=
  match env.scanOut with
  | none => (false, [])
  | some lines => scanLoop env ssid pw lines

/-- `checkIfConnected` (source: always returns false). -/
def checkIfConnected (_ : String) : Bool := false

/- ---------------- watcher loop iterations (main.go, scripts/…) ------------ -/

/-- Observable actions of one watcher-loop iteration. -/
inductive Action where
  | log (msg : String)
  | sleepSec (n : Nat)
  | scpCall
  | connectAttempt
  | remove (name : String)
  deriving Repr, DecidableEq

/-- Environment of one iteration of `main` in file_transfer_watcher/main.go:
the staging listing seen by the first `os.ReadDir` (`none` = error), the
`scpDir` environment, the listing seen by the second `os.ReadDir` performed
just before deletion (files may have appeared in between), and the set of
entry names whose `os.RemoveAll` fails. -/
structure MainEnv where
  snap1 : Option (List String)
  scpEnv : ScpEnv
  snap2 : Option (List String)
  removeFail : List String
  deriving Repr, DecidableEq

/-- The deletion loop of main.go over the second listing: each entry gets an
`os.RemoveAll`; on failure the error is logged and the loop sleeps 5 s and
moves on to the next entry (`continue` targets the inner range loop).  Returns
the actions and the names actually removed. -/
def cleanupFold (fails : List String) : List String → List Action × List String
  | [] => ([], [])
  | n :: rest =>
    let r := cleanupFold fails rest
    if fails.contains n then
      (Action.remove n :: Action.log "Error occured on delete" ::
        Action.sleepSec 5 :: r.1, r.2)
    else
      (Action.remove n :: r.1, n :: r.2)

/-- Result of one watcher-loop iteration: its action trace, the staging
entries it removed, and the files `scpDir` actually copied. -/
structure IterResult where
  actions : List Action
  deleted : List String
  transferred : List Transfer
  deriving Repr, DecidableEq

/-- One iteration of the `for` loop of file_transfer_watcher/main.go.  The
connectivity block is commented out in this source file, so no connectivity
action is ever emitted: the iteration lists the staging directory (empty or
unreadable: sleep 5 s and restart), calls `scpDir` (error: log, sleep 5 s,
restart), re-lists the staging directory, removes every listed entry, and
sleeps 5 min. -/
def mainIteration (env : MainEnv) (ingest : List String) : IterResult :=
  match env.snap1 with
  | none => ⟨[Action.log "Nothing to do; sleeping", Action.sleepSec 5], [], []⟩
  | some ents =>
    if ents.isEmpty then
      ⟨[Action.log "Nothing to do; sleeping", Action.sleepSec 5], [], []⟩
    else
      let r := scpDir env.scpEnv ingest
      match r.1 with
      | some m =>
        ⟨[Action.scpCall, Action.log ("Error occured on scp: " ++ m),
          Action.sleepSec 5], [], r.2⟩
      | none =>
        match env.snap2 with
        | none =>
          ⟨[Action.scpCall, Action.log "Deleteing local files",
            Action.log "Failed to delete", Action.sleepSec 5], [], r.2⟩
        | some names =>
          let c := cleanupFold env.removeFail names
          ⟨[Action.scpCall, Action.log "Deleteing local files"] ++ c.1 ++
            [Action.log "Sleeping for a bit", Action.sleepSec 300], c.2, r.2⟩

/-- Environment of one iteration of the older single-file watcher
(scripts/file_transfer_watcher.go): nmcli outcomes and the `scpDir`
environment. -/
structure ScriptsEnv where
  nmcli : NmcliEnv
  scpEnv : ScpEnv
  deriving Repr, DecidableEq

/-- One iteration of the `for` loop of scripts/file_transfer_watcher.go: check
connectivity (`checkIfConnected` is hardwired false, so `findAndConnect` runs
every iteration); on failure sleep 5 s and restart; otherwise call `scpDir`
(error: log, sleep 5 s, restart; success: sleep 5 min).  The deletion block is
commented out in this source file. -/
def scriptsIteration (env : ScriptsEnv) (ssid pw : String)
    (ingest : List String) : IterResult :=
  if checkIfConnected ssid then
    let r := scpDir env.scpEnv ingest
    match r.1 with
    | some m =>
      ⟨[Action.scpCall, Action.log ("Error occured on scp: " ++ m),
        Action.sleepSec 5], [], r.2⟩
    | none =>
      ⟨[Action.scpCall, Action.log "Sleeping for a bit", Action.sleepSec 300],
        [], r.2⟩
  else if (findAndConnect env.nmcli ssid pw).1 then
    let r := scpDir env.scpEnv ingest
    match r.1 with
    | some m =>
      ⟨[Action.connectAttempt, Action.scpCall,
        Action.log ("Error occured on scp: " ++ m), Action.sleepSec 5], [], r.2⟩
    | none =>
      ⟨[Action.connectAttempt, Action.scpCall, Action.log "Sleeping for a bit",
        Action.sleepSec 300], [], r.2⟩
  else
    ⟨[Action.connectAttempt, Action.log "Found network: false",
      Action.sleepSec 5], [], []⟩

/- ---------------- speedReader (scp_dir.go) -------------------------------- -/

/-- State of a `speedReader`: transfer start time, time of the last passing of
the print guard, and cumulative byte counter.  Times are integers
(nanoseconds, as in `time.Time`/`time.Duration`). -/
structure SpeedState where
  start : Int
  lastPrint : Int
  counter : Int
  deriving Repr, DecidableEq

/-- One call to the underlying reader as seen by `speedReader.Read`: the value
of `time.Now()` during the call and the byte count the inner read returned. -/
structure ReadEv where
  now : Int
  nBytes : Int
  deriving Repr, DecidableEq

/-- `speedReader.Read` (scp_dir.go): add the bytes to the counter; if
`now - lastPrint ≥ minDelta` then print the progress line — but only when the
elapsed time since `start` is strictly positive (the throughput division is
guarded by `elapsed > 0`) — and set `lastPrint` to `now`.  Returns whether a
progress line was printed, and the next state. -/
def speedRead (minDelta : Int) (s : SpeedState) (ev : ReadEv) :
    Bool × SpeedState :=
  let c := s.counter + ev.nBytes
  if minDelta ≤ ev.now - s.lastPrint then
    ((if 0 < ev.now - s.start then true else false),
      ⟨s.start, ev.now, c⟩)
  else
    (false, ⟨s.start, s.lastPrint, c⟩)

/-- The times at which progress lines are printed over a sequence of reads. -/
def printTimes (minDelta : Int) (s : SpeedState) : List ReadEv → List Int
  | [] => []
  | ev :: rest =>
    let r := speedRead minDelta s ev
    if r.1 then ev.now :: printTimes minDelta r.2 rest
    else printTimes minDelta r.2 rest

/- ---------------- concrete environments used by closed statements ---------- -/

/-- A pass in which `a.jpg` is staged and transferred, after which `late.jpg`
appears in the staging directory before the pre-deletion re-listing. -/
def c1Env : MainEnv :=
  { snap1 := some ["a.jpg"]
    scpEnv := { connectErr := none
                entries := [⟨["a.jpg"], false, 420, none, none, none⟩] }
    snap2 := some ["a.jpg", "late.jpg"]
    removeFail := [] }

/-- A pass with a staged file while the remote host is unreachable. -/
def c2Env : MainEnv :=
  { snap1 := some ["img.jpg"]
    scpEnv := { connectErr := some "no route to host", entries := [] }
    snap2 := none
    removeFail := [] }

/-- The same disconnected situation for the older single-file watcher: the
target network is scanned but advertises no WPA2 security. -/
def c2ScriptsEnv : ScriptsEnv :=
  { nmcli := { scanOut := some ["pi4        70      --"]
               conShowOk := true
               connectOk := true }
    scpEnv := { connectErr := some "no route to host", entries := [] } }

/-- A successful three-file tree for the sync-shape witness: the root
directory, a nested directory, and two regular files. -/
def c3Env : ScpEnv :=
  { connectErr := none
    entries := [⟨[], true, 509, none, none, none⟩,
                ⟨["run1"], true, 509, none, none, none⟩,
                ⟨["run1", "a.jpg"], false, 420, none, none, none⟩,
                ⟨["b.raw"], false, 384, none, none, none⟩] }

/-- A clean first file for the abort witness. -/
def c4Good : FsEntry := ⟨["good.jpg"], false, 420, none, none, none⟩

/-- A file whose remote copy fails, for the abort witness. -/
def c4Bad : FsEntry := ⟨["bad.jpg"], false, 420, none, none, some "refused"⟩

/-- A file after the failing one, for the abort witness. -/
def c4Rest : FsEntry := ⟨["later.jpg"], false, 420, none, none, none⟩

/-- A pass whose second file fails to copy. -/
def c4Env : MainEnv :=
  { snap1 := some ["good.jpg", "bad.jpg", "later.jpg"]
    scpEnv := { connectErr := none, entries := [c4Good, c4Bad, c4Rest] }
    snap2 := none
    removeFail := [] }

/-- An iteration that finds the staging directory unreadable. -/
def c6Env : MainEnv :=
  { snap1 := none
    scpEnv := { connectErr := none, entries := [] }
    snap2 := none
    removeFail := [] }

/-- A scan whose lines either lack the target name or advertise the wrong
security mode. -/
def c5Env : NmcliEnv :=
  { scanOut := some ["pi4        70      --", "campus     50      WPA2"]
    conShowOk := true
    connectOk := true }

/-- A scan that finds the secured target network while no local connection
profile exists. -/
def c8Env : NmcliEnv :=
  { scanOut := some ["pi4        70      WPA2"]
    conShowOk := false
    connectOk := true }

/-- A successful pass whose cleanup fails on the entry `stuck`. -/
def c9Env : MainEnv :=
  { snap1 := some ["f1"]
    scpEnv := { connectErr := none
                entries := [⟨["f1"], false, 420, none, none, none⟩] }
    snap2 := some ["f1", "stuck", "f2"]
    removeFail := ["stuck"] }

/- ======================= helper lemmas ==================================== -/

theorem scpWalk_clean_cons (ingest : List String) (e : FsEntry) (rest : List FsEntry)
    (hw : e.walkErr = none) (ho : e.openErr = none) (hc : e.copyErr = none)
    (hd : e.isDir = false) :
    scpWalk ingest (e :: rest) =
      ((scpWalk ingest rest).1, transferOf ingest e :: (scpWalk ingest rest).2) := by
  simp [scpWalk, hw, ho, hc, hd]

theorem scpWalk_dir_cons (ingest : List String) (e : FsEntry) (rest : List FsEntry)
    (hw : e.walkErr = none) (hd : e.isDir = true) :
    scpWalk ingest (e :: rest) = scpWalk ingest rest := by
  simp [scpWalk, hw, hd]

theorem scpWalk_append_clean (ingest : List String) (pre rest : List FsEntry)
    (h : ∀ e ∈ pre, cleanEntry e) :
    scpWalk ingest (pre ++ rest) =
      ((scpWalk ingest rest).1, transfersOf ingest pre ++ (scpWalk ingest rest).2) := by
  induction pre with
  | nil => simp [transfersOf]
  | cons e pre ih =>
    have he := h e (by simp)
    obtain ⟨hw, ho, hc⟩ := he
    have hrest : ∀ x ∈ pre, cleanEntry x := fun x hx => h x (by simp [hx])
    cases hd : e.isDir with
    | true =>
      rw [List.cons_append, scpWalk_dir_cons ingest e (pre ++ rest) hw hd, ih hrest]
      simp [transfersOf, hd]
    | false =>
      rw [List.cons_append, scpWalk_clean_cons ingest e (pre ++ rest) hw ho hc hd,
        ih hrest]
      simp [transfersOf, hd]

theorem scpWalk_err_head (ingest : List String) (e : FsEntry) (rest : List FsEntry)
    (m : String) (h : entryErr e = some m) :
    scpWalk ingest (e :: rest) = (some m, []) := by
  unfold entryErr at h
  cases hw : e.walkErr with
  | some w =>
    rw [hw] at h
    simp at h
    simp [scpWalk, hw, h]
  | none =>
    rw [hw] at h
    cases hd : e.isDir with
    | true => rw [hd] at h; simp at h
    | false =>
      rw [hd] at h
      cases ho : e.openErr with
      | some o =>
        rw [ho] at h
        simp at h
        simp [scpWalk, hw, hd, ho, h]
      | none =>
        rw [ho] at h
        cases hc : e.copyErr with
        | some c =>
          rw [hc] at h
          simp at h
          simp [scpWalk, hw, hd, ho, hc, h]
        | none => rw [hc] at h; simp at h

theorem scpWalk_ok_transfers (ingest : List String) (l : List FsEntry)
    (h : (scpWalk ingest l).1 = none) :
    (scpWalk ingest l).2 = transfersOf ingest l := by
  induction l with
  | nil => simp [scpWalk, transfersOf]
  | cons e rest ih =>
    cases hw : e.walkErr with
    | some w => simp [scpWalk, hw] at h
    | none =>
      cases hd : e.isDir with
      | true =>
        rw [scpWalk_dir_cons ingest e rest hw hd] at h ⊢
        rw [ih h]
        simp [transfersOf, hd]
      | false =>
        cases ho : e.openErr with
        | some o => simp [scpWalk, hw, hd, ho] at h
        | none =>
          cases hc : e.copyErr with
          | some c => simp [scpWalk, hw, hd, ho, hc] at h
          | none =>
            rw [scpWalk_clean_cons ingest e rest hw ho hc hd] at h ⊢
            simp only at h
            rw [ih h]
            simp [transfersOf, hd]

set_option maxRecDepth 10000 in
theorem octal4_perm_length (n : Nat) : (octal4 (n % 512)).length = 4 := by
  have h : ∀ i : Fin 512, (octal4 i.val).length = 4 := by decide
  exact h ⟨n % 512, Nat.mod_lt _ (by norm_num)⟩

theorem cleanupFold_remove_mem (fails names : List String) (n : String)
    (h : n ∈ names) : Action.remove n ∈ (cleanupFold fails names).1 := by
  induction names with
  | nil => simp at h
  | cons m rest ih =>
    rcases List.mem_cons.mp h with h1 | h2
    · subst h1
      by_cases hf : n ∈ fails <;> simp [cleanupFold, hf]
    · by_cases hf : m ∈ fails <;> simp [cleanupFold, hf, ih h2]

theorem cleanupFold_deleted (fails names : List String) :
    (cleanupFold fails names).2 =
      names.filter (fun n => !(fails.contains n)) := by
  induction names with
  | nil => simp [cleanupFold]
  | cons m rest ih =>
    by_cases hf : m ∈ fails <;>
      simp [cleanupFold, hf, ih, List.filter_cons]

theorem cleanupFold_log_mem (fails names : List String) (n : String)
    (h : n ∈ names) (hf : n ∈ fails) :
    Action.log "Error occured on delete" ∈ (cleanupFold fails names).1 := by
  induction names with
  | nil => simp at h
  | cons m rest ih =>
    rcases List.mem_cons.mp h with h1 | h2
    · subst h1
      simp [cleanupFold, hf]
    · by_cases hm : m ∈ fails <;> simp [cleanupFold, hm, ih h2]

theorem scanLoop_no_match (env : NmcliEnv) (ssid pw : String) (lines : List String)
    (h : ∀ line ∈ lines, matchLine ssid line = false) :
    scanLoop env ssid pw lines = (false, []) := by
  induction lines with
  | nil => rfl
  | cons l rest ih =>
    have hl := h l (by simp)
    rw [scanLoop, hl]
    simp only [Bool.false_eq_true, if_false]
    exact ih fun x hx => h x (by simp [hx])

theorem scanLoop_found (env : NmcliEnv) (ssid pw : String) (lines : List String)
    (h : ∃ l ∈ lines, matchLine ssid l = true) :
    scanLoop env ssid pw lines =
      (env.connectOk,
        [["con", "show", ssid],
         if env.conShowOk then ["device", "wifi", "connect", ssid]
         else createConnectArgs ssid pw]) := by
  induction lines with
  | nil => simp at h
  | cons l rest ih =>
    by_cases hl : matchLine ssid l
    · rw [scanLoop, hl]
      simp
    · rcases h with ⟨x, hx, hmx⟩
      rcases List.mem_cons.mp hx with h1 | h2
      · subst h1; exact absurd hmx hl
      · rw [scanLoop]
        simp only [hl, Bool.false_eq_true, if_false]
        exact ih ⟨x, h2, hmx⟩

theorem getLast?_append_pair {α : Type} (l : List α) (x y : α) :
    (l ++ [x, y]).getLast? = some y := by
  have h : l ++ [x, y] = (l ++ [x]) ++ [y] := by simp
  rw [h, List.getLast?_concat]

theorem printTimes_chain_from (md : Int) (hmd : 0 ≤ md) :
    ∀ (evs : List ReadEv) (s : SpeedState), 0 < s.lastPrint - s.start →
      List.Chain (fun a b => md ≤ b - a) s.lastPrint (printTimes md s evs) := by
  intro evs
  induction evs with
  | nil => intro s _; exact List.Chain.nil
  | cons ev rest ih =>
    intro s hs
    by_cases hg : md ≤ ev.now - s.lastPrint
    · have hp : 0 < ev.now - s.start := by omega
      have hred : printTimes md s (ev :: rest) =
          ev.now :: printTimes md ⟨s.start, ev.now, s.counter + ev.nBytes⟩ rest := by
        simp [printTimes, speedRead, hg, hp]
      rw [hred]
      exact List.Chain.cons hg (ih ⟨s.start, ev.now, s.counter + ev.nBytes⟩ (by simpa using hp))
    · have hred : printTimes md s (ev :: rest) =
          printTimes md ⟨s.start, s.lastPrint, s.counter + ev.nBytes⟩ rest := by
        simp [printTimes, speedRead, hg]
      rw [hred]
      exact ih ⟨s.start, s.lastPrint, s.counter + ev.nBytes⟩ (by simpa using hs)

/- ======================= claim theorems =================================== -/

/-- Claim C1 (refuted: the code deletes more than it transferred).  In the
concrete schedule `c1Env`, `a.jpg` is staged and transferred by an error-free
pass; `late.jpg` appears in the staging directory after the transfer walk but
before main.go's pre-deletion re-listing, and the deletion loop removes it even
though no transfer pass transferred it: the only file handed to the remote
side is `a.jpg`. -/
theorem mainLoop_deletes_untransferred_late_file :
    "late.jpg" ∈ (mainIteration c1Env ["ingest"]).deleted ∧
    (mainIteration c1Env ["ingest"]).transferred =
      [{ remotePath := ["ingest", "a.jpg"], modeStr := "0644" }] := by
  decide

/-- Claim C2 (refuted: the current watcher never invokes the connectivity
manager).  In file_transfer_watcher/main.go the connectivity block is commented
out: with a non-empty staging directory and an unreachable remote host
(`c2Env`), the iteration attempts `scpDir` without any connectivity attempt.
The older single-file watcher (scripts/file_transfer_watcher.go) does behave as
claimed: with the target network advertising no WPA2 security
(`c2ScriptsEnv`), it makes the connectivity attempt, skips the transfer, and
backs off. -/
theorem mainLoop_transfers_without_connectivity_check :
    (Action.scpCall ∈ (mainIteration c2Env ["ingest"]).actions ∧
     Action.connectAttempt ∉ (mainIteration c2Env ["ingest"]).actions) ∧
    (Action.connectAttempt ∈
        (scriptsIteration c2ScriptsEnv "pi4" "passyword" ["ingest"]).actions ∧
     Action.scpCall ∉
        (scriptsIteration c2ScriptsEnv "pi4" "passyword" ["ingest"]).actions ∧
     Action.sleepSec 5 ∈
        (scriptsIteration c2ScriptsEnv "pi4" "passyword" ["ingest"]).actions) := by
  decide

/-- Claim C3: on a pass in which `scpDir` reports no error, exactly the
regular files of the walked tree are sent, each to the remote path obtained by
joining the ingest directory with the file's path relative to the export
directory, carrying its permission bits (`mode & 0o777`) rendered by `%04o`,
which is a 4-digit octal mode string; directories yield no transfer of their
own. -/
theorem scpDir_success_transfer_shape (env : ScpEnv) (ingest : List String)
    (h : (scpDir env ingest).1 = none) :
    (scpDir env ingest).2 =
      env.entries.filterMap (fun e =>
        if e.isDir then none
        else some { remotePath := ingest ++ e.rel
                    modeStr := octal4 (e.mode % 512) }) ∧
    ∀ t ∈ (scpDir env ingest).2, t.modeStr.length = 4 := by
  cases hc : env.connectErr with
  | some m => simp [scpDir, hc] at h
  | none =>
    have hw : (scpWalk ingest env.entries).1 = none := by
      simpa [scpDir, hc] using h
    have h2 : (scpDir env ingest).2 = transfersOf ingest env.entries := by
      simp only [scpDir, hc]
      exact scpWalk_ok_transfers ingest env.entries hw
    constructor
    · rw [h2]; rfl
    · intro t ht
      rw [h2] at ht
      simp only [transfersOf, List.mem_filterMap] at ht
      obtain ⟨e, _, hfe⟩ := ht
      cases hd : e.isDir with
      | true => rw [hd] at hfe; simp at hfe
      | false =>
        rw [hd] at hfe
        simp only [if_false, Option.some.injEq, Bool.false_eq_true] at hfe
        rw [← hfe]
        exact octal4_perm_length e.mode

theorem scpDir_success_transfer_shape_witness :
    (scpDir c3Env ["home", "sr-design", "ingest"]).1 = none ∧
    ((scpDir c3Env ["home", "sr-design", "ingest"]).2 =
      c3Env.entries.filterMap (fun e =>
        if e.isDir then none
        else some { remotePath := ["home", "sr-design", "ingest"] ++ e.rel
                    modeStr := octal4 (e.mode % 512) }) ∧
     ∀ t ∈ (scpDir c3Env ["home", "sr-design", "ingest"]).2,
       t.modeStr.length = 4) :=
  ⟨by decide,
   scpDir_success_transfer_shape c3Env ["home", "sr-design", "ingest"] (by decide)⟩

/-- Claim C4: if some file of the pass fails (walk error, open error, or
remote-copy error) while every earlier entry succeeded, `scpDir` returns that
file's error with exactly the copies made before it (later files are not
processed, earlier copies are not rolled back), and the watcher iteration then
performs no deletion: its whole trace is the scp call, one error log, and the
short 5 s backoff. -/
theorem scpDir_first_error_aborts_no_cleanup (env : MainEnv) (ingest : List String)
    (ents : List String) (pre rest : List FsEntry) (e : FsEntry) (m : String)
    (h1 : env.snap1 = some ents) (h2 : ents ≠ [])
    (hc : env.scpEnv.connectErr = none)
    (hsplit : env.scpEnv.entries = pre ++ e :: rest)
    (hpre : ∀ x ∈ pre, cleanEntry x)
    (he : entryErr e = some m) :
    scpDir env.scpEnv ingest = (some m, transfersOf ingest pre) ∧
    (mainIteration env ingest).actions =
      [Action.scpCall, Action.log ("Error occured on scp: " ++ m),
        Action.sleepSec 5] ∧
    (mainIteration env ingest).deleted = [] := by
  have hscp : scpDir env.scpEnv ingest = (some m, transfersOf ingest pre) := by
    simp only [scpDir, hc, hsplit]
    rw [scpWalk_append_clean ingest pre (e :: rest) hpre,
      scpWalk_err_head ingest e rest m he]
    simp
  have hne : ents.isEmpty = false := by
    cases ents with
    | nil => exact absurd rfl h2
    | cons a t => rfl
  have hit : mainIteration env ingest =
      ⟨[Action.scpCall, Action.log ("Error occured on scp: " ++ m),
          Action.sleepSec 5], [], transfersOf ingest pre⟩ := by
    simp [mainIteration, h1, hne, hscp]
  exact ⟨hscp, by rw [hit], by rw [hit]⟩

theorem scpDir_first_error_aborts_no_cleanup_witness :
    (c4Env.snap1 = some ["good.jpg", "bad.jpg", "later.jpg"] ∧
     ["good.jpg", "bad.jpg", "later.jpg"] ≠ ([] : List String) ∧
     c4Env.scpEnv.connectErr = none ∧
     c4Env.scpEnv.entries = [c4Good] ++ c4Bad :: [c4Rest] ∧
     (∀ x ∈ [c4Good], cleanEntry x) ∧
     entryErr c4Bad = some "copy: refused") ∧
    (scpDir c4Env.scpEnv ["ingest"] =
        (some "copy: refused", transfersOf ["ingest"] [c4Good]) ∧
     (mainIteration c4Env ["ingest"]).actions =
        [Action.scpCall, Action.log ("Error occured on scp: " ++ "copy: refused"),
          Action.sleepSec 5] ∧
     (mainIteration c4Env ["ingest"]).deleted = []) :=
  ⟨⟨by decide, by decide, by decide, by decide, by decide, by decide⟩,
   scpDir_first_error_aborts_no_cleanup c4Env ["ingest"]
     ["good.jpg", "bad.jpg", "later.jpg"] [c4Good] [c4Rest] c4Bad "copy: refused"
     (by decide) (by decide) (by decide) (by decide) (by decide) (by decide)⟩

/-- Claim C5: if every line of the scan output that contains the target name
fails to contain the expected security mode `"WPA2"`, `findAndConnect` issues
no nmcli command after the scan (in particular no connect command) and returns
false. -/
theorem findAndConnect_rejects_wrong_security (env : NmcliEnv) (ssid pw : String)
    (lines : List String) (hscan : env.scanOut = some lines)
    (h : ∀ line ∈ lines,
      goContains line ssid = true → goContains line "WPA2" = false) :
    findAndConnect env ssid pw = (false, []) := by
  have hm : ∀ line ∈ lines, matchLine ssid line = false := by
    intro l hl
    unfold matchLine
    cases hcs : goContains l ssid with
    | false => simp
    | true => simp [h l hl hcs]
  simp only [findAndConnect, hscan]
  exact scanLoop_no_match env ssid pw lines hm

theorem findAndConnect_rejects_wrong_security_witness :
    (c5Env.scanOut = some ["pi4        70      --", "campus     50      WPA2"] ∧
     ∀ line ∈ ["pi4        70      --", "campus     50      WPA2"],
       goContains line "pi4" = true → goContains line "WPA2" = false) ∧
    findAndConnect c5Env "pi4" "EC463" = (false, []) :=
  ⟨⟨rfl, by decide⟩,
   findAndConnect_rejects_wrong_security c5Env "pi4" "EC463" _ rfl (by decide)⟩

/-- Claim C6: when the first staging listing errors or is empty, the iteration
of main.go only logs and sleeps the short 5 s poll interval: no scp call, no
connectivity attempt, nothing transferred, nothing deleted. -/
theorem mainLoop_idle_safety (env : MainEnv) (ingest : List String)
    (h : env.snap1 = none ∨ env.snap1 = some []) :
    (mainIteration env ingest).actions =
      [Action.log "Nothing to do; sleeping", Action.sleepSec 5] ∧
    Action.scpCall ∉ (mainIteration env ingest).actions ∧
    Action.connectAttempt ∉ (mainIteration env ingest).actions ∧
    (mainIteration env ingest).transferred = [] ∧
    (mainIteration env ingest).deleted = [] := by
  have hit : mainIteration env ingest =
      ⟨[Action.log "Nothing to do; sleeping", Action.sleepSec 5], [], []⟩ := by
    rcases h with h | h <;> simp [mainIteration, h]
  rw [hit]
  exact ⟨rfl, by decide, by decide, rfl, rfl⟩

theorem mainLoop_idle_safety_witness :
    (c6Env.snap1 = none ∨ c6Env.snap1 = some []) ∧
    ((mainIteration c6Env ["ingest"]).actions =
      [Action.log "Nothing to do; sleeping", Action.sleepSec 5] ∧
     Action.scpCall ∉ (mainIteration c6Env ["ingest"]).actions ∧
     Action.connectAttempt ∉ (mainIteration c6Env ["ingest"]).actions ∧
     (mainIteration c6Env ["ingest"]).transferred = [] ∧
     (mainIteration c6Env ["ingest"]).deleted = []) :=
  ⟨Or.inl rfl, mainLoop_idle_safety c6Env ["ingest"] (Or.inl rfl)⟩

/-- Claim C7: for any non-negative minimum interval, any initial reader state,
and any sequence of reads, the times of consecutive progress prints of
`speedReader.Read` are separated by at least the minimum interval, so prints
are throttled by elapsed time rather than by read count. -/
theorem speedReader_print_gap (md : Int) (hmd : 0 ≤ md) (s : SpeedState)
    (evs : List ReadEv) :
    List.Chain' (fun a b => md ≤ b - a) (printTimes md s evs) := by
  induction evs generalizing s with
  | nil => exact List.chain'_nil
  | cons ev rest ih =>
    by_cases hg : md ≤ ev.now - s.lastPrint
    · by_cases hp : 0 < ev.now - s.start
      · have hred : printTimes md s (ev :: rest) =
            ev.now :: printTimes md ⟨s.start, ev.now, s.counter + ev.nBytes⟩ rest := by
          simp [printTimes, speedRead, hg, hp]
        rw [hred]
        exact printTimes_chain_from md hmd rest
          ⟨s.start, ev.now, s.counter + ev.nBytes⟩ (by simpa using hp)
      · have hred : printTimes md s (ev :: rest) =
            printTimes md ⟨s.start, ev.now, s.counter + ev.nBytes⟩ rest := by
          simp [printTimes, speedRead, hg, hp]
        rw [hred]
        exact ih _
    · have hred : printTimes md s (ev :: rest) =
          printTimes md ⟨s.start, s.lastPrint, s.counter + ev.nBytes⟩ rest := by
        simp [printTimes, speedRead, hg]
      rw [hred]
      exact ih _

theorem speedReader_print_gap_witness :
    (0 : Int) ≤ 100 ∧
    List.Chain' (fun a b => (100 : Int) ≤ b - a)
      (printTimes 100 ⟨0, 0, 0⟩ [⟨50, 10⟩, ⟨120, 10⟩, ⟨130, 10⟩, ⟨250, 10⟩]) :=
  ⟨by norm_num,
   speedReader_print_gap 100 (by norm_num) ⟨0, 0, 0⟩
     [⟨50, 10⟩, ⟨120, 10⟩, ⟨130, 10⟩, ⟨250, 10⟩]⟩

/-- Claim C8: when a scan line matches the target and no connection profile
exists (`nmcli con show` fails), `findAndConnect` issues, after the profile
check, a create-and-connect command carrying the password pair exactly when
the supplied password is non-empty. -/
theorem findAndConnect_password_iff_nonempty (env : NmcliEnv) (ssid pw : String)
    (lines : List String) (line : String)
    (hscan : env.scanOut = some lines) (hmem : line ∈ lines)
    (hm : matchLine ssid line = true) (hns : env.conShowOk = false) :
    (pw ≠ "" ∧ findAndConnect env ssid pw =
        (env.connectOk, [["con", "show", ssid],
          ["device", "wifi", "connect", ssid, "remotePassword", pw]])) ∨
    (pw = "" ∧ findAndConnect env ssid pw =
        (env.connectOk, [["con", "show", ssid],
          ["device", "wifi", "connect", ssid]])) := by
  have hfound := scanLoop_found env ssid pw lines ⟨line, hmem, hm⟩
  rw [hns] at hfound
  by_cases hpw : pw = ""
  · right
    refine ⟨hpw, ?_⟩
    simp only [findAndConnect, hscan, hfound]
    simp [createConnectArgs, hpw]
  · left
    refine ⟨hpw, ?_⟩
    simp only [findAndConnect, hscan, hfound]
    simp [createConnectArgs, hpw]

theorem findAndConnect_password_iff_nonempty_witness :
    (c8Env.scanOut = some ["pi4        70      WPA2"] ∧
     "pi4        70      WPA2" ∈ ["pi4        70      WPA2"] ∧
     matchLine "pi4" "pi4        70      WPA2" = true ∧
     c8Env.conShowOk = false) ∧
    (("EC463" ≠ "" ∧ findAndConnect c8Env "pi4" "EC463" =
        (c8Env.connectOk, [["con", "show", "pi4"],
          ["device", "wifi", "connect", "pi4", "remotePassword", "EC463"]])) ∨
     ("EC463" = "" ∧ findAndConnect c8Env "pi4" "EC463" =
        (c8Env.connectOk, [["con", "show", "pi4"],
          ["device", "wifi", "connect", "pi4"]]))) :=
  ⟨⟨rfl, by decide, by decide, rfl⟩,
   findAndConnect_password_iff_nonempty c8Env "pi4" "EC463"
     ["pi4        70      WPA2"] "pi4        70      WPA2"
     rfl (by decide) (by decide) rfl⟩

/-- Claim C9: after an error-free transfer pass, if removing some staging
entry fails, the error is logged, every listed entry still gets its removal
attempt, exactly the entries whose removal succeeded are gone, and the
iteration still ends with the long 5 min idle delay. -/
theorem mainLoop_partial_cleanup_tolerated (env : MainEnv) (ingest : List String)
    (ents names : List String) (bad : String)
    (h1 : env.snap1 = some ents) (h2 : ents ≠ [])
    (hscp : (scpDir env.scpEnv ingest).1 = none)
    (h3 : env.snap2 = some names)
    (hbad : bad ∈ names) (hfail : bad ∈ env.removeFail) :
    Action.log "Error occured on delete" ∈ (mainIteration env ingest).actions ∧
    (∀ n ∈ names, Action.remove n ∈ (mainIteration env ingest).actions) ∧
    (mainIteration env ingest).deleted =
      names.filter (fun n => !(env.removeFail.contains n)) ∧
    (mainIteration env ingest).actions.getLast? = some (Action.sleepSec 300) := by
  have hne : ents.isEmpty = false := by
    cases ents with
    | nil => exact absurd rfl h2
    | cons a t => rfl
  have hit : mainIteration env ingest =
      ⟨[Action.scpCall, Action.log "Deleteing local files"] ++
          (cleanupFold env.removeFail names).1 ++
          [Action.log "Sleeping for a bit", Action.sleepSec 300],
        (cleanupFold env.removeFail names).2, (scpDir env.scpEnv ingest).2⟩ := by
    simp [mainIteration, h1, hne, hscp, h3]
  refine ⟨?_, ?_, ?_, ?_⟩
  · have hl := cleanupFold_log_mem env.removeFail names bad hbad hfail
    rw [hit]
    simp [List.mem_append, hl]
  · intro n hn
    have hr := cleanupFold_remove_mem env.removeFail names n hn
    rw [hit]
    simp [List.mem_append, hr]
  · rw [hit]
    exact cleanupFold_deleted env.removeFail names
  · rw [hit]
    exact getLast?_append_pair _ _ _

theorem mainLoop_partial_cleanup_tolerated_witness :
    (c9Env.snap1 = some ["f1"] ∧ ["f1"] ≠ ([] : List String) ∧
     (scpDir c9Env.scpEnv ["ingest"]).1 = none ∧
     c9Env.snap2 = some ["f1", "stuck", "f2"] ∧
     "stuck" ∈ ["f1", "stuck", "f2"] ∧ "stuck" ∈ c9Env.removeFail) ∧
    (Action.log "Error occured on delete" ∈
        (mainIteration c9Env ["ingest"]).actions ∧
     (∀ n ∈ ["f1", "stuck", "f2"],
       Action.remove n ∈ (mainIteration c9Env ["ingest"]).actions) ∧
     (mainIteration c9Env ["ingest"]).deleted =
       (["f1", "stuck", "f2"]).filter (fun n => !(c9Env.removeFail.contains n)) ∧
     (mainIteration c9Env ["ingest"]).actions.getLast? =
       some (Action.sleepSec 300)) :=
  ⟨⟨rfl, by decide, by decide, rfl, by decide, by decide⟩,
   mainLoop_partial_cleanup_tolerated c9Env ["ingest"] ["f1"]
     ["f1", "stuck", "f2"] "stuck" rfl (by decide) (by decide) rfl
     (by decide) (by decide)⟩

/-- Claim C10: a progress print of `speedReader.Read` happens only when the
elapsed time since transfer start is strictly positive — the `elapsed > 0`
guard in front of the throughput division holds on every read, so the division
never sees a zero denominator and no line is printed with zero elapsed time. -/
theorem speedReader_prints_only_positive_elapsed (md : Int) (s : SpeedState)
    (evs : List ReadEv) (t : Int) (h : t ∈ printTimes md s evs) :
    0 < t - s.start := by
  induction evs generalizing s with
  | nil => simp [printTimes] at h
  | cons ev rest ih =>
    by_cases hg : md ≤ ev.now - s.lastPrint
    · by_cases hp : 0 < ev.now - s.start
      · have hred : printTimes md s (ev :: rest) =
            ev.now :: printTimes md ⟨s.start, ev.now, s.counter + ev.nBytes⟩ rest := by
          simp [printTimes, speedRead, hg, hp]
        rw [hred] at h
        rcases List.mem_cons.mp h with h1 | h2
        · subst h1; exact hp
        · exact ih ⟨s.start, ev.now, s.counter + ev.nBytes⟩ h2
      · have hred : printTimes md s (ev :: rest) =
            printTimes md ⟨s.start, ev.now, s.counter + ev.nBytes⟩ rest := by
          simp [printTimes, speedRead, hg, hp]
        rw [hred] at h
        exact ih ⟨s.start, ev.now, s.counter + ev.nBytes⟩ h
    · have hred : printTimes md s (ev :: rest) =
          printTimes md ⟨s.start, s.lastPrint, s.counter + ev.nBytes⟩ rest := by
        simp [printTimes, speedRead, hg]
      rw [hred] at h
      exact ih ⟨s.start, s.lastPrint, s.counter + ev.nBytes⟩ h

theorem speedReader_prints_only_positive_elapsed_witness :
    (120 : Int) ∈ printTimes 100 ⟨0, 0, 0⟩ [⟨120, 5⟩] ∧
    (0 : Int) < 120 - 0 :=
  ⟨by decide,
   speedReader_prints_only_positive_elapsed 100 ⟨0, 0, 0⟩ [⟨120, 5⟩] 120 (by decide)⟩

end AgroDrone
